import Mathlib

/-! Verification of the http-client-multipart crate's streaming multipart
encoder: a shallow embedding of `src/encoding.rs`, `src/part.rs`,
`src/reader_stream.rs` and `src/multipart.rs`, with theorems about the
rendering, streaming, pull-reading and size-hint behaviour.  Bytes are
modelled as `Nat` (the Rust code guarantees values below 256), buffers as
`List Nat`; the asynchronous byte sources are modelled as in-memory
cursors (each read returns `min bufSize remaining` bytes, as the
`http_types::Body` reader over an in-memory buffer does), and stateful
read loops are modelled with fuel bounded by the source length. -/

namespace HttpMultipart

/-- ASCII byte list of a string literal (all strings involved are ASCII). -/
def strBytes (s : String) : List Nat :=
  s.data.map Char.toNat

/-- The two-byte CRLF line terminator. -/
def crlf : List Nat := [13, 10]

/-- The two ASCII dashes that open and close boundary lines. -/
def dashDash : List Nat := [45, 45]

/-- Modelled from the spec: the standard base64 alphabet of the external
base64 crate (RFC 4648): indices 0-25 map to A-Z, 26-51 to a-z,
52-61 to 0-9, 62 to plus, 63 to slash; the result is the ASCII code. -/
def b64Char (n : Nat) : Nat :=
  if n < 26 then 65 + n
  else if n < 52 then 97 + (n - 26)
  else if n < 62 then 48 + (n - 52)
  else if n = 62 then 43
  else 47

/-- Modelled from the spec: unpadded standard base64
(`STANDARD_NO_PAD.encode` of the external base64 crate, used by
`Encoding::encode`): each group of three input bytes becomes four
alphabet symbols, a final group of one or two bytes becomes two or three
symbols, and no padding is appended. -/
def b64 : List Nat → List Nat
  | b0 :: b1 :: b2 :: rest =>
      b64Char (b0 / 4) :: b64Char (b0 % 4 * 16 + b1 / 16)
        :: b64Char (b1 % 16 * 4 + b2 / 64) :: b64Char (b2 % 64) :: b64 rest
  | [b0, b1] => [b64Char (b0 / 4), b64Char (b0 % 4 * 16 + b1 / 16), b64Char (b1 % 16 * 4)]
  | [b0] => [b64Char (b0 / 4), b64Char (b0 % 4 * 16)]
  | [] => []

/-- Modelled from the spec: padded standard base64 (`STANDARD.encode` of
the external base64 crate, the engine used inside `Part::extend`): the
unpadded encoding followed by `=` padding up to a multiple of four
symbols. -/
def b64pad (bs : List Nat) : List Nat :=
  b64 bs ++ (if bs.length % 3 = 1 then [61, 61]
             else if bs.length % 3 = 2 then [61] else [])

/-- Inverse of the standard base64 alphabet (ASCII code back to sixtet). -/
def b64CharInv (c : Nat) : Option Nat :=
  if 65 ≤ c ∧ c ≤ 90 then some (c - 65)
  else if 97 ≤ c ∧ c ≤ 122 then some (26 + (c - 97))
  else if 48 ≤ c ∧ c ≤ 57 then some (52 + (c - 48))
  else if c = 43 then some 62
  else if c = 47 then some 63
  else none

/-- Decoder for unpadded standard base64, written independently of `b64`
so that the encode/decode roundtrip pins the encoder to the standard. -/
def b64decode : List Nat → Option (List Nat)
  | c0 :: c1 :: c2 :: c3 :: rest => do
      let s0 ← b64CharInv c0
      let s1 ← b64CharInv c1
      let s2 ← b64CharInv c2
      let s3 ← b64CharInv c3
      let tail ← b64decode rest
      pure ((s0 * 4 + s1 / 16) :: (s1 % 16 * 16 + s2 / 4) :: (s2 % 4 * 64 + s3) :: tail)
  | [c0, c1, c2] => do
      let s0 ← b64CharInv c0
      let s1 ← b64CharInv c1
      let s2 ← b64CharInv c2
      pure [s0 * 4 + s1 / 16, s1 % 16 * 16 + s2 / 4]
  | [c0, c1] => do
      let s0 ← b64CharInv c0
      let s1 ← b64CharInv c1
      pure [s0 * 4 + s1 / 16]
  | [] => some []
  | [_] => none

/-- One uppercase hexadecimal digit as an ASCII code (0-9 then A-F). -/
def hexDigit (n : Nat) : Nat :=
  if n < 10 then 48 + n else 55 + n

/-- Modelled from the spec: the external quoted_printable crate's
`encode` (RFC 2045 quoted-printable): printable ASCII bytes other than
`=` pass through, as do space and tab; every other byte is escaped as
`=XX` with uppercase hexadecimal digits.  Soft line breaks are not
modelled. -/
def qpEncode (bs : List Nat) : List Nat :=
  (bs.map (fun b =>
    if (b = 9 ∨ b = 32) ∨ (33 ≤ b ∧ b ≤ 126 ∧ b ≠ 61) then [b]
    else [61, hexDigit (b / 16), hexDigit (b % 16)])).flatten

/-- The transfer-encoding enum of `src/encoding.rs`. -/
inductive Encoding where
  | SevenBit
  | EightBit
  | Base64
  | QuotedPrintable
deriving DecidableEq

/-- Encoding::to_str of `src/encoding.rs`. -/
def Encoding.to_str : Encoding → String
  | Encoding.SevenBit => "7bit"
  | Encoding.EightBit => "8bit"
  | Encoding.Base64 => "base64"
  | Encoding.QuotedPrintable => "quoted-printable"

/-- Encoding::encode of `src/encoding.rs`.  The Rust method rewrites the
buffer in place; it is modelled as the pure function from the input
buffer to the rewritten buffer. -/
def Encoding.encode : Encoding → List Nat → List Nat
  | Encoding.SevenBit, bs => bs
  | Encoding.EightBit, bs => bs
  | Encoding.Base64, bs => b64 bs
  | Encoding.QuotedPrintable, bs => qpEncode bs

/-- Applies the optional encoding of a `ReaderStream`, as its
`poll_next` does: chunks pass through unchanged when no encoding is
set. -/
def encOpt : Option Encoding → List Nat → List Nat
  | none, bs => bs
  | some e, bs => Encoding.encode e bs

/-- CHUNK_SIZE of `src/reader_stream.rs`: the default buffer size. -/
def CHUNK_SIZE : Nat := 256

/-- nearest_multiple_of of `src/reader_stream.rs`. -/
def nearestMultipleOf (n multiple : Nat) : Nat :=
  if n % multiple = 0 then n else (n / multiple + 1) * multiple

/-- The effective internal buffer size chosen by `ReaderStream::new`:
the caller hint or `CHUNK_SIZE`, rounded up to a multiple of three when
the encoding is `Base64`. -/
def effBufSize (hint : Option Nat) (enc : Option Encoding) : Nat :=
  match enc with
  | some Encoding.Base64 => nearestMultipleOf (hint.getD CHUNK_SIZE) 3
  | _ => hint.getD CHUNK_SIZE

/-- Fuel-driven splitting of a cursor source into reads of at most `n`
bytes; a read of zero bytes (empty source or zero-sized buffer) ends the
sequence.  The fuel only serves termination and is irrelevant once it is
at least the source length. -/
def chunksOfF : Nat → Nat → List Nat → List (List Nat)
  | 0, _, _ => []
  | fuel + 1, n, bs =>
      if n = 0 ∨ bs = [] then []
      else bs.take n :: chunksOfF fuel n (bs.drop n)

/-- The successive raw reads `<ReaderStream as Stream>::poll_next`
performs on a cursor source with internal buffer size `n`. -/
def chunksOf (n : Nat) (bs : List Nat) : List (List Nat) :=
  chunksOfF bs.length n bs

/-- The chunk sequence emitted by `<ReaderStream as Stream>::poll_next`
over a cursor source: each raw read, truncated to the bytes actually
read and passed through the optional encoding. -/
def rsChunks (n : Nat) (enc : Option Encoding) (bs : List Nat) : List (List Nat) :=
  (chunksOf n bs).map (encOpt enc)

/-- One `<ReaderStream as AsyncRead>::poll_read` cycle in pull mode with
a destination buffer of length `L`: with an encoding set, up to `L` raw
bytes are read into a temporary buffer, encoded, and at most `L` bytes
of the encoded result are copied out (the rest is dropped with the
temporary buffer); without an encoding the read passes through.  Returns
the delivered bytes and the remaining source. -/
def pullStep (enc : Option Encoding) (L : Nat) (bs : List Nat) : List Nat × List Nat :=
  match enc with
  | none => (bs.take L, bs.drop L)
  | some e => ((Encoding.encode e (bs.take L)).take L, bs.drop L)

/-- Fuel-driven repetition of `pullStep` until a read returns zero
bytes, i.e. reading a `ReaderStream` to its end in pull mode with a
fixed destination-buffer length `L`. -/
def pullDrainF : Nat → Option Encoding → Nat → List Nat → List Nat
  | 0, _, _, _ => []
  | fuel + 1, enc, L, bs =>
      if L = 0 ∨ bs = [] then []
      else (pullStep enc L bs).1 ++ pullDrainF fuel enc L (pullStep enc L bs).2

/-- All bytes delivered by reading a `ReaderStream` to its end in pull
mode with destination buffers of length `L`. -/
def pullDrain (enc : Option Encoding) (L : Nat) (bs : List Nat) : List Nat :=
  pullDrainF bs.length enc L bs

/-- The payload source of a `Part`: the `http_types::Body`.  `len` is
the length the body reports (`Body::len`), which is `some` of the actual
byte count for in-memory bodies but is caller-supplied — and may be
`none` or differ from the byte count — for reader-backed bodies. -/
structure Body where
  bytes : List Nat
  len : Option Nat

/-- A single field of a multipart form (`Part` of `src/part.rs`).  The
`mime` Display string written by `write_header` and the `essence_str`
counted by `header_len` are carried separately (`contentTypeFull` and
`contentTypeEssence`); they coincide exactly when the MIME type has no
parameters. -/
structure Part where
  name : List Nat
  data : Body
  contentTypeFull : List Nat
  contentTypeEssence : List Nat
  file_data : Option (List Nat)
  encoding : Option Encoding

/-- Part::text of `src/part.rs`: a text part with `text/plain` content
type, no filename and an in-memory body. -/
def Part.text (name value : List Nat) (encoding : Option Encoding) : Part :=
  { name := name
    data := { bytes := value, len := some value.length }
    contentTypeFull := strBytes ("text/plain")
    contentTypeEssence := strBytes ("text/plain")
    file_data := none
    encoding := encoding }

/-- Part::file_raw of `src/part.rs`: a file part with the given filename
and an in-memory body. -/
def Part.file_raw (name filename : List Nat) (ctFull ctEssence : List Nat)
    (encoding : Option Encoding) (value : List Nat) : Part :=
  { name := name
    data := { bytes := value, len := some value.length }
    contentTypeFull := ctFull
    contentTypeEssence := ctEssence
    file_data := some filename
    encoding := encoding }

/-- Part::header_len of `src/part.rs`: the byte count the code computes
for the header block, term by term as written there (39 for the
Content-Disposition prefix with its two quotes, 15 for the filename
clause, 14 for the Content-Type prefix, 27 for the
Content-Transfer-Encoding prefix, 2 per CRLF). -/
def Part.header_len (p : Part) : Nat :=
  39 + p.name.length
    + (match p.file_data with
       | some f => 15 + f.length
       | none => 0)
    + 2
    + (14 + p.contentTypeEssence.length)
    + 2
    + (match p.encoding with
       | some e => 27 + (strBytes (Encoding.to_str e)).length + 2
       | none => 0)
    + 2

/-- Part::write_header / Part::header_bytes of `src/part.rs`: the
rendered header block — Content-Disposition line with optional filename
clause, Content-Type line (printing the full MIME Display string),
optional Content-Transfer-Encoding line, then a blank line. -/
def Part.headerBytes (p : Part) : List Nat :=
  strBytes ("Content-Disposition: form-data; name=\"") ++ p.name ++ strBytes ("\"")
    ++ (match p.file_data with
        | some f => strBytes ("; filename=\"") ++ f ++ strBytes ("\"")
        | none => [])
    ++ crlf
    ++ strBytes ("Content-Type: ") ++ p.contentTypeFull ++ crlf
    ++ (match p.encoding with
        | some e => strBytes ("Content-Transfer-Encoding: ")
            ++ strBytes (Encoding.to_str e) ++ crlf
        | none => [])
    ++ crlf

/-- Part::size_hint of `src/part.rs`, transcribed literally: `None` when
the body reports no length; otherwise the reported length, multiplied by
the integer quotient `4 / 3` when the encoding is `Base64` (the Rust
statement `data_len *= 4 / 3`), plus the header length. -/
def Part.size_hint (p : Part) : Option Nat :=
  match p.data.len with
  | none => none
  | some dataLen =>
      some ((match p.encoding with
             | some Encoding.Base64 => dataLen * (4 / 3)
             | _ => dataLen)
            + p.header_len)

/-- Part::into_stream of `src/part.rs`: the header bytes as a first
chunk, then the body streamed through the `ReaderStream` with buffer
size `buf_size.or(data.len())` and the part's encoding. -/
def Part.intoStreamChunks (p : Part) (hint : Option Nat) : List (List Nat) :=
  p.headerBytes :: rsChunks (effBufSize (hint.or p.data.len) p.encoding) p.encoding p.data.bytes

/-- Part::into_reader of `src/part.rs` read to its end in pull mode with
destination buffers of length `L`: the header cursor, then the
`ReaderStream` drained through `poll_read`. -/
def Part.readerBytes (p : Part) (L : Nat) : List Nat :=
  p.headerBytes ++ pullDrain p.encoding L p.data.bytes

/-- Part::extend of `src/part.rs`, transcribed literally: it writes the
header, then drains `into_stream(None)` — whose first chunk is the
header again and whose later chunks already carry the part's encoding —
appending each chunk, re-encoded with padded base64 when the part's
encoding is `Base64`. -/
def Part.extendBytes (p : Part) : List Nat :=
  p.headerBytes
    ++ ((p.intoStreamChunks none).map (fun c =>
          match p.encoding with
          | some Encoding.Base64 => b64pad c
          | _ => c)).flatten

/-- The multipart form of `src/multipart.rs`: a boundary token and the
ordered fields.  `generate_boundary` draws 30 random alphanumeric ASCII
characters; the boundary is left abstract here. -/
structure Multipart where
  boundary : List Nat
  fields : List Part

/-- The loop body of Multipart::size_hint: the running total starts at
34, each field adds 36 plus its own size hint, and a field without a
size hint aborts with `None`. -/
def msizeGo : List Part → Nat → Option Nat
  | [], acc => some acc
  | f :: rest, acc =>
      match f.size_hint with
      | none => none
      | some s => msizeGo rest (acc + 36 + s)

/-- Multipart::size_hint of `src/multipart.rs`: the loop total plus the
final 38. -/
def Multipart.size_hint (m : Multipart) : Option Nat :=
  (msizeGo m.fields 34).map (fun s => s + 38)

/-- Multipart::into_bytes of `src/multipart.rs`: for each field, the
opening boundary line then `Part::extend`; after the loop a CRLF and the
closing boundary line. -/
def Multipart.into_bytes (m : Multipart) : List Nat :=
  (m.fields.map (fun f => dashDash ++ m.boundary ++ crlf ++ f.extendBytes)).flatten
    ++ crlf
    ++ (dashDash ++ m.boundary ++ dashDash ++ crlf)

/-- Multipart::into_stream of `src/multipart.rs`: the empty field list
yields the empty stream; otherwise the opening boundary chunk, the first
field's chunks, then for each later field a separator chunk followed by
its chunks, then the closing chunk. -/
def Multipart.streamChunks (m : Multipart) (hint : Option Nat) : List (List Nat) :=
  match m.fields with
  | [] => []
  | f :: rest =>
      ((dashDash ++ m.boundary ++ crlf) :: f.intoStreamChunks hint)
        ++ (rest.map (fun g =>
              (crlf ++ dashDash ++ m.boundary ++ crlf) :: g.intoStreamChunks hint)).flatten
        ++ [crlf ++ dashDash ++ m.boundary ++ dashDash ++ crlf]

/-- Multipart::into_reader of `src/multipart.rs` read to its end in pull
mode with destination buffers of length `L`: the empty field list yields
the empty reader; otherwise the opening boundary cursor, the first
field's reader, separator cursors and later fields' readers, then the
closing cursor.  The `hint` argument mirrors the Rust signature; the
pull path of `poll_read` sizes its temporary buffer from the
destination, not from the hint. -/
def Multipart.readerBytes (m : Multipart) (_hint : Option Nat) (L : Nat) : List Nat :=
  match m.fields with
  | [] => []
  | f :: rest =>
      (dashDash ++ m.boundary ++ crlf) ++ f.readerBytes L
        ++ (rest.map (fun g =>
              (crlf ++ dashDash ++ m.boundary ++ crlf) ++ g.readerBytes L)).flatten
        ++ (crlf ++ dashDash ++ m.boundary ++ dashDash ++ crlf)

/-- The multipart of the crate's `test_stream_and_reader_equivalence`
test, restricted to its first field: boundary `test-boundary`, one text
field `field1=value1`. -/
def mC1 : Multipart :=
  { boundary := strBytes ("test-boundary")
    fields := [Part.text (strBytes ("field1")) (strBytes ("value1")) none] }

/-- The multipart of the crate's `test_multipart_size_hint` test:
boundary `test-boundary`, one text field `field` with value
`Hello multipart!`. -/
def mC2 : Multipart :=
  { boundary := strBytes ("test-boundary")
    fields := [Part.text (strBytes ("field")) (strBytes ("Hello multipart!")) none] }

/-- The two-field scenario fixed by the spec: boundary `test-boundary`,
text fields `field1=value1` and `field2=value2`. -/
def mC3 : Multipart :=
  { boundary := strBytes ("test-boundary")
    fields := [Part.text (strBytes ("field1")) (strBytes ("value1")) none,
               Part.text (strBytes ("field2")) (strBytes ("value2")) none] }

/-- The prefix the spec claims the rendered bytes of `mC3` begin with. -/
def c3ClaimedPrefix : List Nat :=
  strBytes ("--test-boundary\r\nContent-Disposition: form-data; name=\"field1\"\r\nContent-Type: text/plain\r\n\r\nvalue1\r\n")

/-- The suffix the spec claims the rendered bytes of `mC3` end with. -/
def c3ClaimedSuffix : List Nat :=
  strBytes ("--test-boundary--\r\n")

/-- A text part with a three-byte payload of known length and `Base64`
transfer encoding (as `add_enc_text` would build). -/
def pC5 : Part :=
  Part.text (strBytes ("f")) (strBytes ("abc")) (some Encoding.Base64)

/-- A file part (filename present) with `text/plain` content type and no
transfer encoding, as `add_file_bytes` would build it. -/
def pC6file : Part :=
  Part.file_raw (strBytes ("a")) (strBytes ("f"))
    (strBytes ("text/plain")) (strBytes ("text/plain")) none (strBytes ("xyz"))

/-- A text part (no filename) with default content type. -/
def pC6text : Part :=
  Part.text (strBytes ("field")) (strBytes ("Hello world!")) none

/-- A multipart with an empty field list. -/
def mEmpty : Multipart :=
  { boundary := strBytes ("test-boundary"), fields := [] }

/-- nearest_multiple_of n 3 is the least multiple of three at or above
`n`. -/
theorem nearestMultipleOf_three (n : Nat) :
    3 ∣ nearestMultipleOf n 3 ∧ n ≤ nearestMultipleOf n 3 ∧ nearestMultipleOf n 3 < n + 3 := by
  unfold nearestMultipleOf
  split <;> omega

/-- The fuel in `chunksOfF` is irrelevant once it bounds the source
length. -/
theorem chunksOfF_irrel : ∀ (f1 f2 n : Nat) (bs : List Nat),
    bs.length ≤ f1 → bs.length ≤ f2 → chunksOfF f1 n bs = chunksOfF f2 n bs := by
  intro f1
  induction f1 with
  | zero =>
      intro f2 n bs h1 _
      have hbs : bs = [] := List.eq_nil_of_length_eq_zero (Nat.le_zero.mp h1)
      subst hbs
      cases f2 <;> simp [chunksOfF]
  | succ f ih =>
      intro f2 n bs h1 h2
      cases bs with
      | nil => cases f2 <;> simp [chunksOfF]
      | cons a l =>
          cases f2 with
          | zero => simp at h2
          | succ g =>
              by_cases hn : n = 0
              · simp [chunksOfF, hn]
              · have hcond : ¬ (n = 0 ∨ a :: l = []) := by simp [hn]
                simp only [chunksOfF, if_neg hcond]
                refine congrArg (List.cons _) (ih g n (List.drop n (a :: l)) ?_ ?_)
                · rw [List.length_drop]
                  simp only [List.length_cons] at h1 ⊢
                  omega
                · rw [List.length_drop]
                  simp only [List.length_cons] at h2 ⊢
                  omega

/-- Reading an empty source yields no chunks. -/
theorem chunksOf_nil (n : Nat) : chunksOf n [] = [] := rfl

/-- A zero-sized read buffer ends the chunk sequence at once. -/
theorem chunksOf_zero (bs : List Nat) : chunksOf 0 bs = [] := by
  cases bs <;> simp [chunksOf, chunksOfF]

/-- Unfolding of `chunksOf` on a nonempty source with a nonzero buffer. -/
theorem chunksOf_eq (n : Nat) (bs : List Nat) (hn : n ≠ 0) (hbs : bs ≠ []) :
    chunksOf n bs = bs.take n :: chunksOf n (bs.drop n) := by
  cases bs with
  | nil => exact absurd rfl hbs
  | cons a l =>
      have hcond : ¬ (n = 0 ∨ a :: l = []) := by simp [hn]
      show chunksOfF (l.length + 1) n (a :: l) = _
      simp only [chunksOfF, if_neg hcond]
      refine congrArg (List.cons _) (chunksOfF_irrel l.length _ n _ ?_ ?_)
      · rw [List.length_drop]
        simp only [List.length_cons] at *
        omega
      · rfl

/-- Unpadded base64 distributes over an append whose left block has a
length divisible by three. -/
theorem b64_append : ∀ (a b : List Nat), a.length % 3 = 0 → b64 (a ++ b) = b64 a ++ b64 b
  | [], _, _ => by simp [b64]
  | [_], _, h => by simp at h
  | [_, _], _, h => by simp at h
  | x :: y :: z :: rest, b, h => by
      have hr : rest.length % 3 = 0 := by
        simp only [List.length_cons] at h
        omega
      have ih := b64_append rest b hr
      simp [b64, ih]

/-- Encoding each read chunk independently agrees with encoding the
concatenation of the reads, provided the read size is a multiple of
three. -/
theorem b64_chunks (n : Nat) (h3 : 3 ∣ n) (bs : List Nat) :
    ((chunksOf n bs).map b64).flatten = b64 ((chunksOf n bs).flatten) := by
  rcases eq_or_ne n 0 with rfl | hn
  · simp [chunksOf_zero, b64]
  rcases eq_or_ne bs [] with rfl | hbs
  · simp [chunksOf_nil, b64]
  rw [chunksOf_eq n bs hn hbs]
  rcases eq_or_ne (bs.drop n) [] with hd | hd
  · rw [hd, chunksOf_nil]
    simp [b64]
  · have hlt : n < bs.length := by
      by_contra hc
      push_neg at hc
      exact hd (List.drop_eq_nil_of_le hc)
    have hmod : (bs.take n).length % 3 = 0 := by
      rw [List.length_take]
      omega
    have ih := b64_chunks n h3 (bs.drop n)
    simp only [List.map_cons, List.flatten_cons]
    rw [b64_append _ _ hmod, ih]
termination_by bs.length
decreasing_by
  simp only [List.length_drop]
  omega

/-- The alphabet inverse undoes the alphabet on every sixtet. -/
theorem b64CharInv_b64Char (n : Nat) (h : n < 64) : b64CharInv (b64Char n) = some n := by
  unfold b64Char b64CharInv
  split_ifs <;> first
    | (simp only [Option.some.injEq]; omega)
    | omega

/-- The independent decoder undoes `b64` on byte-valued inputs. -/
theorem b64_roundtrip : ∀ (bs : List Nat), (∀ b ∈ bs, b < 256) → b64decode (b64 bs) = some bs
  | [], _ => rfl
  | [b0], h => by
      have hb : b0 < 256 := h b0 (by simp)
      have e0 : b0 / 4 < 64 := by omega
      have e1 : b0 % 4 * 16 < 64 := by omega
      simp only [b64, b64decode, b64CharInv_b64Char _ e0, b64CharInv_b64Char _ e1,
        Option.bind_eq_bind, Option.some_bind, Option.pure_def,
        Option.some.injEq, List.cons.injEq, and_true]
      omega
  | [b0, b1], h => by
      have hb0 : b0 < 256 := h b0 (by simp)
      have hb1 : b1 < 256 := h b1 (by simp)
      have e0 : b0 / 4 < 64 := by omega
      have e1 : b0 % 4 * 16 + b1 / 16 < 64 := by omega
      have e2 : b1 % 16 * 4 < 64 := by omega
      simp only [b64, b64decode, b64CharInv_b64Char _ e0, b64CharInv_b64Char _ e1,
        b64CharInv_b64Char _ e2, Option.bind_eq_bind, Option.some_bind, Option.pure_def,
        Option.some.injEq, List.cons.injEq, and_true]
      constructor <;> omega
  | b0 :: b1 :: b2 :: rest, h => by
      have hb0 : b0 < 256 := h b0 (by simp)
      have hb1 : b1 < 256 := h b1 (by simp)
      have hb2 : b2 < 256 := h b2 (by simp)
      have ih := b64_roundtrip rest (fun b hb => h b (by simp [hb]))
      have e0 : b0 / 4 < 64 := by omega
      have e1 : b0 % 4 * 16 + b1 / 16 < 64 := by omega
      have e2 : b1 % 16 * 4 + b2 / 64 < 64 := by omega
      have e3 : b2 % 64 < 64 := by omega
      simp only [b64, b64decode, b64CharInv_b64Char _ e0, b64CharInv_b64Char _ e1,
        b64CharInv_b64Char _ e2, b64CharInv_b64Char _ e3, ih,
        Option.bind_eq_bind, Option.some_bind, Option.pure_def,
        Option.some.injEq, List.cons.injEq, and_true]
      refine ⟨?_, ?_, ?_⟩ <;> omega

/-- Closed form of the `Multipart::size_hint` loop. -/
theorem msizeGo_eq (fs : List Part) : ∀ acc : Nat,
    msizeGo fs acc =
      if fs.all (fun f => (Part.size_hint f).isSome) then
        some (acc + (fs.map (fun f => 36 + (Part.size_hint f).getD 0)).sum)
      else none := by
  induction fs with
  | nil => intro acc; simp [msizeGo]
  | cons f rest ih =>
      intro acc
      cases hf : f.size_hint with
      | none => simp [msizeGo, hf]
      | some s =>
          simp only [msizeGo, hf, ih, List.all_cons, List.map_cons, List.sum_cons,
            Option.isSome_some, Bool.true_and, Option.getD_some]
          split
          · exact congrArg some (by omega)
          · rfl

set_option maxRecDepth 100000 in
/-- C1: the claim that `into_stream`, `into_reader` and `into_bytes`
materialize the same bytes fails on the code: at the concrete multipart
`mC1` (boundary `test-boundary`, one text field `field1=value1`, chunk
hint 8) the stream and the reader do concatenate to the same bytes, but
`into_bytes` differs, because `Part::extend` writes the header and then
also drains `into_stream`, whose first chunk is the header again. -/
theorem c1_materializations_disagree :
    (Multipart.streamChunks mC1 (some 8)).flatten = Multipart.readerBytes mC1 (some 8) 8
    ∧ (Multipart.streamChunks mC1 (some 8)).flatten ≠ Multipart.into_bytes mC1 := by
  constructor
  · decide
  · decide

set_option maxRecDepth 100000 in
/-- C2: the claim that `size_hint` equals the `into_bytes` length fails
on the code at the multipart of the crate's own `test_multipart_size_hint`
test: the hint is 198 but the buffer has 202 bytes. -/
theorem c2_size_hint_into_bytes_mismatch :
    Multipart.size_hint mC2 = some 198 ∧ (Multipart.into_bytes mC2).length = 202 := by
  constructor
  · decide
  · decide

set_option maxRecDepth 100000 in
/-- C3: on the spec's fixed two-field scenario the `into_bytes` output
does not begin with the claimed opening (the header block is emitted
twice and the per-part trailing CRLF is missing), though it does end
with the claimed closing boundary line. -/
theorem c3_into_bytes_framing :
    List.isPrefixOf c3ClaimedPrefix (Multipart.into_bytes mC3) = false
    ∧ List.isSuffixOf c3ClaimedSuffix (Multipart.into_bytes mC3) = true := by
  constructor
  · decide
  · decide

/-- C4: for a `Base64` `ReaderStream`, the internal buffer size is the
caller hint (default 256) rounded up to the nearest multiple of three,
and the concatenation of the encoded chunks the stream emits equals the
unpadded base64 encoding of the concatenation of the raw reads, so chunk
boundaries never split a four-symbol group. -/
theorem c4_base64_chunk_alignment (hint : Option Nat) (bs : List Nat) :
    (3 ∣ effBufSize hint (some Encoding.Base64)
      ∧ hint.getD CHUNK_SIZE ≤ effBufSize hint (some Encoding.Base64)
      ∧ effBufSize hint (some Encoding.Base64) < hint.getD CHUNK_SIZE + 3)
    ∧ (rsChunks (effBufSize hint (some Encoding.Base64)) (some Encoding.Base64) bs).flatten
        = b64 ((chunksOf (effBufSize hint (some Encoding.Base64)) bs).flatten) := by
  have h := nearestMultipleOf_three (hint.getD CHUNK_SIZE)
  refine ⟨⟨h.1, h.2.1, h.2.2⟩, ?_⟩
  exact b64_chunks _ h.1 bs

set_option maxRecDepth 100000 in
/-- C5 counterexample: the claim that a known-length `Base64` part's
size hint is `header_len + n * 4 / 3` fails at `pC5` (payload length 3):
the code returns `header_len + 3`, not `header_len + 4`, because the
Rust statement `data_len *= 4 / 3` multiplies by the integer quotient
`4 / 3 = 1`. -/
theorem c5_base64_hint_counterexample :
    Part.size_hint pC5 ≠ some (Part.header_len pC5 + 3 * 4 / 3) := by
  decide

/-- C5 (amended): for every Part whose body reports a length `n`,
`size_hint` returns `Some (n + header_len)` for every encoding — the
`Base64` multiplier `4 / 3` truncates to one, so the payload
contribution is unchanged for `Base64` exactly as for the identity and
quoted-printable encodings. -/
theorem c5_size_hint_payload_unchanged (p : Part) :
    Part.size_hint p = Option.map (fun n => n + Part.header_len p) p.data.len := by
  rcases hL : p.data.len with _ | L <;>
    rcases hE : p.encoding with _ | e
  · simp [Part.size_hint, hL]
  · simp [Part.size_hint, hL]
  · simp [Part.size_hint, hL, hE]
  · cases e <;> simp [Part.size_hint, hL, hE]

set_option maxRecDepth 100000 in
/-- C6: the claim that `header_len` equals the byte length of the
rendered header fails for file parts: at the concrete file part
`pC6file` the precomputed length exceeds the rendered length by exactly
two (the code counts 15 bytes for the 13-byte fragment
`; filename=""`, contradicting its own comment), while at the text part
`pC6text` the two agree. -/
theorem c6_header_len_miscount :
    Part.header_len pC6file = (Part.headerBytes pC6file).length + 2
    ∧ Part.header_len pC6text = (Part.headerBytes pC6text).length := by
  constructor
  · decide
  · decide

/-- C7: `Multipart::size_hint` is `Some` exactly when every part's size
hint is `Some`, and is then the opening constant 34 plus, per part, the
separator constant 36 plus that part's hint, plus the closing constant
38 (the framing constants the code uses for its 30-character
boundaries). -/
theorem c7_multipart_size_hint (m : Multipart) :
    Multipart.size_hint m =
      if m.fields.all (fun f => (Part.size_hint f).isSome) then
        some (34 + (m.fields.map (fun f => 36 + (Part.size_hint f).getD 0)).sum + 38)
      else none := by
  unfold Multipart.size_hint
  rw [msizeGo_eq]
  split
  · simp only [Option.map_some']
  · rfl

/-- C8: `Encoding::encode` is a pure total function: the identity on
`SevenBit` and `EightBit` input, unpadded standard base64 on `Base64`
input (pinned by the independent decoder roundtrip and the standard
test vector Man ↦ TWFu), the RFC 2045 quoted-printable escaping on
`QuotedPrintable` input (non-printable bytes become `=XX`); and
`to_str` returns exactly the four wire names. -/
theorem c8_encoding_contract :
    (∀ bs, Encoding.encode Encoding.SevenBit bs = bs)
    ∧ (∀ bs, Encoding.encode Encoding.EightBit bs = bs)
    ∧ (∀ bs, Encoding.encode Encoding.Base64 bs = b64 bs)
    ∧ (∀ bs, (∀ b ∈ bs, b < 256) → b64decode (Encoding.encode Encoding.Base64 bs) = some bs)
    ∧ Encoding.encode Encoding.Base64 [77, 97, 110] = [84, 87, 70, 117]
    ∧ (∀ bs, Encoding.encode Encoding.QuotedPrintable bs = qpEncode bs)
    ∧ Encoding.encode Encoding.QuotedPrintable [233] = [61, 69, 57]
    ∧ Encoding.to_str Encoding.SevenBit = "7bit"
    ∧ Encoding.to_str Encoding.EightBit = "8bit"
    ∧ Encoding.to_str Encoding.Base64 = "base64"
    ∧ Encoding.to_str Encoding.QuotedPrintable = "quoted-printable" := by
  refine ⟨fun _ => rfl, fun _ => rfl, fun _ => rfl, fun bs hb => b64_roundtrip bs hb,
    by decide, fun _ => rfl, by decide, rfl, rfl, rfl, rfl⟩

set_option maxRecDepth 100000 in
/-- Witness for C8: the roundtrip conjunct applied at a concrete byte
list. -/
theorem c8_encoding_contract_witness :
    (∀ b ∈ [72, 105, 33], b < 256)
    ∧ b64decode (Encoding.encode Encoding.Base64 [72, 105, 33]) = some [72, 105, 33] :=
  ⟨by decide, c8_encoding_contract.2.2.2.1 [72, 105, 33] (by decide)⟩

/-- C9: a multipart with an empty field list streams to an empty chunk
sequence (no boundary wrapper) and reads to zero bytes in pull mode, for
every chunk hint and destination-buffer length. -/
theorem c9_empty_multipart (hint : Option Nat) (L : Nat) (m : Multipart)
    (h : m.fields = []) :
    Multipart.streamChunks m hint = [] ∧ Multipart.readerBytes m hint L = [] := by
  constructor
  · simp [Multipart.streamChunks, h]
  · simp [Multipart.readerBytes, h]

/-- Witness for C9: the empty multipart `mEmpty` at hint 8 and
destination length 8. -/
theorem c9_empty_multipart_witness :
    Multipart.streamChunks mEmpty (some 8) = [] ∧ Multipart.readerBytes mEmpty (some 8) 8 = [] :=
  c9_empty_multipart (some 8) 8 mEmpty rfl

set_option maxRecDepth 100000 in
/-- C10: in pull mode with an encoding set, each `poll_read` cycle
delivers at most the destination length `L` of the encoded bytes of one
read-encode cycle and drops the rest; concretely, draining the six-byte
source 1..6 through `Base64` with four-byte destinations yields seven
bytes, not the eight bytes of the full encoding — encoded payload bytes
are lost. -/
theorem c10_pull_mode_discards :
    (∀ (L : Nat) (bs : List Nat), ((pullStep (some Encoding.Base64) L bs).1).length ≤ L)
    ∧ pullStep (some Encoding.Base64) 4 [1, 2, 3, 4, 5, 6] = ((b64 [1, 2, 3, 4]).take 4, [5, 6])
    ∧ (b64 [1, 2, 3, 4]).length = 6
    ∧ pullDrain (some Encoding.Base64) 4 [1, 2, 3, 4, 5, 6] ≠ b64 [1, 2, 3, 4, 5, 6] := by
  refine ⟨?_, by decide, by decide, by decide⟩
  intro L bs
  simp [pullStep, Encoding.encode, List.length_take]

end HttpMultipart
